import Mathlib

/-!
Shallow embedding of the restfs REST-backed filesystem adapter (Go package
rest: RESTFileSystem and File) for verification.  Remote objects live in a
World value that also records the chronological log of backend API calls,
so that theorems can count backend create/update/fetch operations.  Local
staging primitives (temp-dir creation, temp-file creation, reopening the
temp file, opening it read-only at close) are assumed to succeed; backend
create and update failures are injected through World flags.  Machine
integers (int64 positions) are modelled as Int, byte slices as List Nat.
A nil dereference in the Go code is modelled by the GoResult.panicked
outcome.
-/

namespace RestFS

abbrev Byte := Nat

/-- Go os.O_WRONLY (value on linux/amd64). -/
def O_WRONLY : Nat := 1

/-- Go os.O_RDWR. -/
def O_RDWR : Nat := 2

/-- Go os.O_CREATE. -/
def O_CREATE : Nat := 64

/-- Go os.O_TRUNC. -/
def O_TRUNC : Nat := 512

/-- Go os.O_APPEND. -/
def O_APPEND : Nat := 1024

/-- Go error values relevant to the adapter.  wrapped models
fmt.Errorf with a percent-w verb, which keeps the wrapped error in the
chain that errors.Is inspects. -/
inductive Err where
  | notFound
  | invalidArg
  | eofErr
  | badAccess
  | backendFail
  | wrapped (msg : String) (e : Err)
deriving DecidableEq

/-- Models errors.Is(err, fs.ErrNotExist): true iff the chain of wrapped
errors bottoms out in the not-found error. -/
def errorsIsNotExist : Err → Bool
  | .notFound => true
  | .wrapped _ e => errorsIsNotExist e
  | _ => false

/-- One backend API invocation, as recorded in the call log.  Content
streams are recorded by the bytes they carry. -/
inductive APICall where
  | stat (name : String)
  | getContent (name : String)
  | newFile (name : String) (content : List Byte)
  | update (name : String) (content : List Byte)
deriving DecidableEq

/-- A remote object owned by the backend. -/
structure RObj where
  content : List Byte
  mode : Nat
  isDir : Bool
deriving DecidableEq

/-- Go fs.FileInfo, restricted to the fields the adapter reads
(ModTime is not modelled). -/
structure FileInfo where
  name : String
  size : Int
  mode : Nat
  isDir : Bool
deriving DecidableEq

/-- The backend state plus the chronological log of backend calls.
updateErr and createErr inject backend failures for the corresponding
operations. -/
structure World where
  objects : String → Option RObj
  updateErr : Bool
  createErr : Bool
  calls : List APICall

/-- Outcome of a Go call: normal return value, error return, or a runtime
panic (nil dereference). -/
inductive GoResult (α : Type) where
  | ok (a : α)
  | err (e : Err)
  | panicked
deriving DecidableEq

/-- Backend Stat: metadata of the named object, not-found when absent. -/
def apiStat (w : World) (name : String) : Except Err FileInfo × World :=
  let w1 : World := { w with calls := w.calls ++ [.stat name] }
  match w.objects name with
  | some o => (.ok ⟨name, (o.content.length : Int), o.mode, o.isDir⟩, w1)
  | none => (.error .notFound, w1)

/-- Backend GetContent: full content stream of the named object. -/
def apiGetContent (w : World) (name : String) : Except Err (List Byte) × World :=
  let w1 : World := { w with calls := w.calls ++ [.getContent name] }
  match w.objects name with
  | some o => (.ok o.content, w1)
  | none => (.error .notFound, w1)

/-- Backend NewFile: create the named object from a content stream.
Fails when the createErr fault is injected. -/
def apiNewFile (w : World) (name : String) (content : List Byte) :
    Except Err Unit × World :=
  let w1 : World := { w with calls := w.calls ++ [.newFile name content] }
  if w.createErr then (.error .backendFail, w1)
  else
    (.ok (), { w1 with
      objects := fun n => if n = name then some ⟨content, 511, false⟩ else w.objects n })

/-- Backend Update: replace the content of the named object.  Fails when
the updateErr fault is injected. -/
def apiUpdate (w : World) (name : String) (content : List Byte) :
    Except Err Unit × World :=
  let w1 : World := { w with calls := w.calls ++ [.update name content] }
  if w.updateErr then (.error .backendFail, w1)
  else
    (.ok (), { w1 with
      objects := fun n =>
        if n = name then (w.objects n).map (fun o => { o with content := content })
        else w.objects n })

/-- The local staging temp file, after it has been reopened with the
open flags of the handle: its byte content and the OS-level offset of the
open descriptor (always 0 right after reopening). -/
structure TempFile where
  content : List Byte
  off : Nat
deriving DecidableEq

/-- Seek whence values (io.SeekStart, io.SeekCurrent, io.SeekEnd, plus an
invalid value for the default branch of the Go switch). -/
inductive Whence where
  | seekStart
  | seekCurrent
  | seekEnd
  | invalidWhence
deriving DecidableEq

/-- os.File.Seek on the staging temp file: computes the new offset, on a
negative result returns 0 with an invalid-argument error and leaves the
offset unchanged. -/
def TempFile.seek (t : TempFile) (offset : Int) (wh : Whence) :
    (Int × Option Err) × TempFile :=
  let npos : Int :=
    match wh with
    | .seekStart => offset
    | .seekCurrent => (t.off : Int) + offset
    | .seekEnd => (t.content.length : Int) + offset
    | .invalidWhence => -1
  if npos < 0 then ((0, some .invalidArg), t)
  else ((npos, none), { t with off := npos.toNat })

/-- os.File.Read on the staging temp file: reads up to n bytes starting at
the current descriptor offset; end-of-file error when the offset is at or
past the end; fails on a descriptor opened write-only. -/
def TempFile.read (t : TempFile) (flag : Nat) (n : Nat) :
    Except Err (List Byte) × TempFile :=
  if flag &&& 3 = O_WRONLY then (.error .badAccess, t)
  else if n = 0 then (.ok [], t)
  else if t.content.length ≤ t.off then (.error .eofErr, t)
  else
    let bytes := (t.content.drop t.off).take n
    (.ok bytes, { t with off := t.off + bytes.length })

/-- os.File.Write on the staging temp file: in append mode writes at the
end and moves the offset there; otherwise writes at the current offset
(zero-padding a gap past the end) and advances it; fails on a descriptor
opened read-only. -/
def TempFile.write (t : TempFile) (flag : Nat) (bytes : List Byte) :
    Except Err Nat × TempFile :=
  if flag &&& 3 = 0 then (.error .badAccess, t)
  else if flag &&& O_APPEND ≠ 0 then
    (.ok bytes.length,
      { content := t.content ++ bytes, off := t.content.length + bytes.length })
  else
    (.ok bytes.length,
      { content :=
          t.content.take t.off ++ List.replicate (t.off - t.content.length) 0 ++
            bytes ++ t.content.drop (t.off + bytes.length),
        off := t.off + bytes.length })

/-- The per-open file handle (Go struct File).  tf is the lazily created
staging temp file (nil when absent); pos is the tracked int64 position. -/
structure File where
  isNew : Bool
  tf : Option TempFile
  pos : Int
  name : String
  flag : Nat
  perm : Nat
deriving DecidableEq

/-- Go File.stat (lowercase): backend Stat, with errors reported to stderr
and turned into a nil FileInfo. -/
def File.statProbe (f : File) (w : World) : Option FileInfo × World :=
  match apiStat w f.name with
  | (.ok fi, w1) => (some fi, w1)
  | (.error _, w1) => (none, w1)

/-- Go File.Size: size from the backend stat, 0 when the stat failed. -/
def File.Size (f : File) (w : World) : Int × World :=
  match f.statProbe w with
  | (none, w1) => (0, w1)
  | (some fi, w1) => (fi.size, w1)

/-- Go File.Seek.  Staged handle: delegate to the temp file seek and
mirror its returned offset into pos (0 on error).  Unmaterialized handle:
pure arithmetic on pos, with one backend stat probe for SeekEnd, rejecting
a negative result with an invalid-argument error. -/
def File.Seek (f : File) (w : World) (offset : Int) (wh : Whence) :
    GoResult Int × File × World :=
  match f.tf with
  | some t =>
    match t.seek offset wh with
    | ((ret, some e), t1) => (.err e, { f with tf := some t1, pos := ret }, w)
    | ((ret, none), t1) => (.ok ret, { f with tf := some t1, pos := ret }, w)
  | none =>
    let step : Int × World :=
      match wh with
      | .seekStart => (offset, w)
      | .seekCurrent => (f.pos + offset, w)
      | .seekEnd =>
        match f.Size w with
        | (sz, w1) => (sz + offset, w1)
      | .invalidWhence => (-1, w)
    if step.1 < 0 then (.err .invalidArg, f, step.2)
    else (.ok step.1, { f with pos := step.1 }, step.2)

/-- Go File.tempFile: on first need, create the staging temp file; when
the object existed at open and truncate was not requested, populate it
with the full remote content (one GetContent call); close and reopen it
with the open flags (descriptor offset 0); in append mode set pos to the
copied size.  Local filesystem steps are assumed to succeed. -/
def File.tempFile (f : File) (w : World) : GoResult TempFile × File × World :=
  match f.tf with
  | some t => (.ok t, f, w)
  | none =>
    if f.flag &&& O_TRUNC = 0 ∧ f.isNew = false then
      match apiGetContent w f.name with
      | (.error e, w1) => (.err e, f, w1)
      | (.ok c, w1) =>
        let t : TempFile := ⟨c, 0⟩
        (.ok t,
          { f with tf := some t,
                   pos := if f.flag &&& O_APPEND ≠ 0 then (c.length : Int) else f.pos },
          w1)
    else
      let t : TempFile := ⟨[], 0⟩
      (.ok t,
        { f with tf := some t,
                 pos := if f.flag &&& O_APPEND ≠ 0 then 0 else f.pos },
        w)

/-- Go File.Read: stage if needed, read from the temp file descriptor, and
advance pos by the transferred count on success. -/
def File.Read (f : File) (w : World) (n : Nat) :
    GoResult (List Byte) × File × World :=
  match f.tempFile w with
  | (.err e, f1, w1) => (.err e, f1, w1)
  | (.panicked, f1, w1) => (.panicked, f1, w1)
  | (.ok t, f1, w1) =>
    match t.read f.flag n with
    | (.error e, t1) => (.err e, { f1 with tf := some t1 }, w1)
    | (.ok bytes, t1) =>
      (.ok bytes,
        { f1 with tf := some t1, pos := f1.pos + (bytes.length : Int) }, w1)

/-- Go File.Write: stage if needed, write to the temp file descriptor, and
advance pos by the transferred count on success. -/
def File.Write (f : File) (w : World) (bytes : List Byte) :
    GoResult Nat × File × World :=
  match f.tempFile w with
  | (.err e, f1, w1) => (.err e, f1, w1)
  | (.panicked, f1, w1) => (.panicked, f1, w1)
  | (.ok t, f1, w1) =>
    match t.write f.flag bytes with
    | (.error e, t1) => (.err e, { f1 with tf := some t1 }, w1)
    | (.ok n, t1) =>
      (.ok n, { f1 with tf := some t1, pos := f1.pos + (n : Int) }, w1)

/-- Go File.Close.  When the object was new at open: send the staged
content (or an empty stream when never staged) to backend NewFile,
propagate its failure, then call Close on the tf field, which for a nil
temp file returns the invalid-argument error that the code wraps as
cannot-close.  Otherwise, when the open requested write access, the code
reads the temp file by name: on a never-staged handle that dereferences a
nil pointer (panic); on a staged handle it sends the content to backend
Update and discards the result.  Read-only handles on existing objects
return success with no backend call.  The deferred removal and close of
the temp file are local cleanup with no effect on the returned value. -/
def File.Close (file : File) (w : World) : GoResult Unit × World :=
  if file.isNew then
    let rcContent : List Byte :=
      match file.tf with
      | some t => t.content
      | none => []
    match apiNewFile w file.name rcContent with
    | (.error e, w1) => (.err e, w1)
    | (.ok _, w1) =>
      match file.tf with
      | none => (.err (.wrapped "cannot close" .invalidArg), w1)
      | some _ => (.ok (), w1)
  else
    if file.flag &&& (O_RDWR ||| O_WRONLY) ≠ 0 then
      match file.tf with
      | none => (.panicked, w)
      | some t =>
        let step : Except Err Unit × World :=
          if file.isNew then apiNewFile w file.name t.content
          else apiUpdate w file.name t.content
        (.ok (), step.2)
    else (.ok (), w)

/-- Go File.Stat: synthetic metadata (size 0, non-directory, the name and
permission of the handle) when the object was new at open and creation was
requested; otherwise a direct backend stat. -/
def File.Stat (f : File) (w : World) : Except Err FileInfo × World :=
  if f.isNew = true ∧ f.flag &&& O_CREATE ≠ 0 then
    (.ok ⟨f.name, 0, f.perm, false⟩, w)
  else
    apiStat w f.name

/-- Go RESTFileSystem.OpenFile: one backend stat probe; an object counts
as existing unless the probe error is the not-found error; any probe error
is propagated (wrapped) unless it is not-found and creation was requested,
in which case a handle with isNew true is produced. -/
def RESTFileSystem.OpenFile (w : World) (name : String) (flag : Nat) (perm : Nat) :
    Except Err File × World :=
  match apiStat w name with
  | (.ok _, w1) => (.ok ⟨false, none, 0, name, flag, perm⟩, w1)
  | (.error e, w1) =>
    if errorsIsNotExist e then
      if flag &&& O_CREATE ≠ 0 then (.ok ⟨true, none, 0, name, flag, perm⟩, w1)
      else (.error (.wrapped "error while opening file" e), w1)
    else (.error (.wrapped "error while opening file" e), w1)

/-- Go RESTFileSystem.Stat: direct passthrough to the backend. -/
def RESTFileSystem.Stat (w : World) (name : String) : Except Err FileInfo × World :=
  apiStat w name

/-- A backend with no objects and no injected faults. -/
def emptyWorld : World :=
  { objects := fun _ => none, updateErr := false, createErr := false, calls := [] }

/-- A backend holding exactly one object with the given content. -/
def worldWith (name : String) (c : List Byte) : World :=
  { objects := fun n => if n = name then some ⟨c, 493, false⟩ else none,
    updateErr := false, createErr := false, calls := [] }

/-- Like worldWith, but every backend Update call fails. -/
def worldWithUpdErr (name : String) (c : List Byte) : World :=
  { objects := fun n => if n = name then some ⟨c, 493, false⟩ else none,
    updateErr := true, createErr := false, calls := [] }

/-- The mask tested by Close for write access. -/
theorem rdwr_or_wronly_eq_three : O_RDWR ||| O_WRONLY = 3 := rfl

/-- C1: the claim fails on the code at the never-staged input.  On an
absent object opened with create intent and closed with no Read or Write,
the backend create is invoked exactly once with an empty stream and
succeeds (the object appears remotely with empty content), yet Close
returns the wrapped invalid-argument error produced by calling Close on
the nil temp-file handle, instead of the success the claim requires. -/
theorem C1_close_unstaged_create_errors :
    (RESTFileSystem.OpenFile emptyWorld "a" (O_CREATE ||| O_WRONLY) 420).1 =
      .ok ⟨true, none, 0, "a", O_CREATE ||| O_WRONLY, 420⟩ ∧
    (File.Close ⟨true, none, 0, "a", O_CREATE ||| O_WRONLY, 420⟩
        (RESTFileSystem.OpenFile emptyWorld "a" (O_CREATE ||| O_WRONLY) 420).2).2.calls =
      [.stat "a", .newFile "a" []] ∧
    (File.Close ⟨true, none, 0, "a", O_CREATE ||| O_WRONLY, 420⟩
        (RESTFileSystem.OpenFile emptyWorld "a" (O_CREATE ||| O_WRONLY) 420).2).2.objects "a" =
      some ⟨[], 511, false⟩ ∧
    (File.Close ⟨true, none, 0, "a", O_CREATE ||| O_WRONLY, 420⟩
        (RESTFileSystem.OpenFile emptyWorld "a" (O_CREATE ||| O_WRONLY) 420).2).1 =
      .err (.wrapped "cannot close" .invalidArg) := by
  refine ⟨rfl, rfl, ?_, rfl⟩
  decide

/-- C2: the claim fails on the code.  On a pre-existing object opened
write-only, staged by a Write, and closed while the backend Update is
failing, the Update call is made (and fails), but Close discards its
result and returns success: the flush error is swallowed. -/
theorem C2_close_swallows_update_error :
    (RESTFileSystem.OpenFile (worldWithUpdErr "b" [1, 2]) "b" O_WRONLY 0).1 =
      .ok ⟨false, none, 0, "b", O_WRONLY, 0⟩ ∧
    (let wr := File.Write ⟨false, none, 0, "b", O_WRONLY, 0⟩
        (RESTFileSystem.OpenFile (worldWithUpdErr "b" [1, 2]) "b" O_WRONLY 0).2 [9]
     let cl := File.Close wr.2.1 wr.2.2
     wr.1 = .ok 1 ∧
     cl.2.calls = [.stat "b", .getContent "b", .update "b" [9, 2]] ∧
     (apiUpdate wr.2.2 "b" [9, 2]).1 = .error .backendFail ∧
     cl.1 = .ok ()) := by
  exact ⟨rfl, rfl, rfl, rfl, rfl⟩

/-- C3: the claim fails on the code.  A handle on a pre-existing object
opened write-only and closed without any Read or Write has no staging
buffer, and Close dereferences the nil temp-file pointer when it asks it
for its name: a runtime panic, not a normal success or error result. -/
theorem C3_close_unstaged_write_panics :
    (RESTFileSystem.OpenFile (worldWith "c" [1]) "c" O_WRONLY 0).1 =
      .ok ⟨false, none, 0, "c", O_WRONLY, 0⟩ ∧
    (File.Close ⟨false, none, 0, "c", O_WRONLY, 0⟩
        (RESTFileSystem.OpenFile (worldWith "c" [1]) "c" O_WRONLY 0).2).1 =
      GoResult.panicked := by
  exact ⟨rfl, rfl⟩

/-- C4: on a handle for a pre-existing object opened with truncate and
write access, writing bytes B and closing stages without any backend
fetch (the buffer is not populated with the remote content) and triggers
exactly one backend update call whose stream carries exactly B. -/
theorem C4_truncate_write_close (w : World) (name : String) (flag perm : Nat)
    (pos0 : Int) (B : List Byte)
    (hacc : flag &&& 3 = O_WRONLY ∨ flag &&& 3 = O_RDWR)
    (htr : flag &&& O_TRUNC ≠ 0) :
    let f : File := ⟨false, none, pos0, name, flag, perm⟩
    let wr := File.Write f w B
    let cl := File.Close wr.2.1 wr.2.2
    wr.1 = .ok B.length ∧
    wr.2.2.calls = w.calls ∧
    cl.2.calls = w.calls ++ [.update name B] ∧
    cl.1 = .ok () := by
  intro f wr cl
  have hne : ¬ (flag &&& 3 = 0) := by
    rcases hacc with h | h <;> simp [h, O_WRONLY, O_RDWR]
  have hwr : wr = (.ok B.length, ⟨false, some ⟨B, B.length⟩, pos0 + B.length, name, flag, perm⟩, w) ∨
      wr = (.ok B.length, ⟨false, some ⟨B, B.length⟩, (B.length : Int), name, flag, perm⟩, w) := by
    by_cases hap : flag &&& O_APPEND = 0
    · left
      simp [wr, f, File.Write, File.tempFile, TempFile.write, htr, hap, hne]
    · right
      simp [wr, f, File.Write, File.tempFile, TempFile.write, htr, hap, hne]
  have hmask : flag &&& (O_RDWR ||| O_WRONLY) ≠ 0 := by
    rw [rdwr_or_wronly_eq_three]
    exact hne
  have hcl : ∀ p : Int, File.Close (⟨false, some ⟨B, B.length⟩, p, name, flag, perm⟩ : File) w =
      (.ok (), (apiUpdate w name B).2) := by
    intro p
    simp [File.Close, hmask]
  have hupcalls : (apiUpdate w name B).2.calls = w.calls ++ [.update name B] := by
    unfold apiUpdate
    cases w.updateErr <;> simp
  rcases hwr with h | h <;>
    simp [cl, h, hcl, hupcalls]

/-- C4 witness: a concrete instance of the truncate-write-close theorem,
on the object named b with prior content 1,2 and written bytes 9. -/
theorem C4_truncate_write_close_witness :
    ((513 : Nat) &&& 3 = O_WRONLY ∨ (513 : Nat) &&& 3 = O_RDWR) ∧
    ((513 : Nat) &&& O_TRUNC ≠ 0) ∧
    (let f : File := ⟨false, none, 0, "b", 513, 0⟩
     let wr := File.Write f (worldWith "b" [1, 2]) [9]
     let cl := File.Close wr.2.1 wr.2.2
     wr.1 = .ok 1 ∧
     wr.2.2.calls = (worldWith "b" [1, 2]).calls ∧
     cl.2.calls = (worldWith "b" [1, 2]).calls ++ [.update "b" [9]] ∧
     cl.1 = .ok ()) :=
  ⟨by decide, by decide,
    C4_truncate_write_close (worldWith "b" [1, 2]) "b" 513 0 0 [9]
      (by decide) (by decide)⟩

/-- C5 counterexample: on the object c with content 10,20,30 opened
read-only (no truncate, no append), seeking the unmaterialized handle to
position 1 and then reading one byte returns the byte 10 at offset 0 of
the remote content, not the byte 20 at offset 1 that the claim predicts:
the reopened staging buffer reads from its own descriptor offset, which
starts at 0, not from the tracked virtual position. -/
theorem C5_seek_then_read_counterexample :
    (let sk := File.Seek ⟨false, none, 0, "c", 0, 0⟩ (worldWith "c" [10, 20, 30]) 1 .seekStart
     let rd := File.Read sk.2.1 sk.2.2 1
     sk.1 = .ok 1 ∧
     sk.2.1.pos = 1 ∧
     rd.1 = .ok [10] ∧
     rd.1 ≠ .ok [20]) := by
  exact ⟨rfl, rfl, rfl, by decide⟩

/-- C5 amended: for a pre-existing object opened without truncate and
without append, staging on the first Read leaves the tracked virtual
position field at the previously tracked value p, but the staged buffer
reads from its own descriptor offset, which starts at 0 after the reopen:
the read transfers bytes of the remote content starting at offset 0
regardless of p (and afterwards the position field is p plus the
transferred count).  When append was requested instead, the position
after staging equals the copied length. -/
theorem C5_amended_staging_read_from_zero (w : World) (name : String)
    (flag flagA perm : Nat) (o : RObj) (p : Int) (n : Nat)
    (hobj : w.objects name = some o)
    (hrd : flag &&& 3 ≠ O_WRONLY) (htr : flag &&& O_TRUNC = 0)
    (hap : flag &&& O_APPEND = 0)
    (hrdA : flagA &&& 3 ≠ O_WRONLY) (htrA : flagA &&& O_TRUNC = 0)
    (hapA : flagA &&& O_APPEND ≠ 0)
    (hp : 0 ≤ p) (hn : n ≠ 0) (hC : o.content ≠ []) :
    let f : File := ⟨false, none, 0, name, flag, perm⟩
    let sk := File.Seek f w p .seekStart
    let rd := File.Read sk.2.1 sk.2.2 n
    let g : File := ⟨false, none, 0, name, flagA, perm⟩
    let rdA := File.Read g w n
    sk.1 = .ok p ∧
    sk.2.1 = { f with pos := p } ∧
    rd.1 = .ok (o.content.take n) ∧
    rd.2.1.pos = p + ((o.content.take n).length : Int) ∧
    rdA.1 = .ok (o.content.take n) ∧
    rdA.2.1.pos = (o.content.length : Int) + ((o.content.take n).length : Int) := by
  intro f sk rd g rdA
  have hlen : ¬ (o.content.length ≤ 0) := by
    simp [Nat.le_zero, List.length_eq_zero]
    exact hC
  have hsk : sk = (.ok p, ⟨false, none, p, name, flag, perm⟩, w) := by
    simp [sk, f, File.Seek]
    omega
  refine ⟨by rw [hsk], by rw [hsk], ?_, ?_, ?_, ?_⟩ <;>
    simp [rd, rdA, g, hsk, File.Read, File.tempFile, TempFile.read, apiGetContent,
      hobj, htr, hap, htrA, hapA, hrd, hrdA, hn, hlen]

/-- C5 amended witness: a concrete instance on the object c with content
10,20,30, position 2, a read of two bytes, and append flag 1024 for the
append conjunct. -/
theorem C5_amended_staging_read_from_zero_witness :
    ((worldWith "c" [10, 20, 30]).objects "c" = some ⟨[10, 20, 30], 493, false⟩ ∧
     (0 : Nat) &&& 3 ≠ O_WRONLY ∧ (0 : Nat) &&& O_TRUNC = 0 ∧
     (0 : Nat) &&& O_APPEND = 0 ∧
     (1024 : Nat) &&& 3 ≠ O_WRONLY ∧ (1024 : Nat) &&& O_TRUNC = 0 ∧
     (1024 : Nat) &&& O_APPEND ≠ 0 ∧
     (0 : Int) ≤ 2 ∧ (2 : Nat) ≠ 0 ∧ ([10, 20, 30] : List Byte) ≠ []) ∧
    (let f : File := ⟨false, none, 0, "c", 0, 0⟩
     let sk := File.Seek f (worldWith "c" [10, 20, 30]) 2 .seekStart
     let rd := File.Read sk.2.1 sk.2.2 2
     let g : File := ⟨false, none, 0, "c", 1024, 0⟩
     let rdA := File.Read g (worldWith "c" [10, 20, 30]) 2
     sk.1 = .ok 2 ∧
     sk.2.1 = { f with pos := 2 } ∧
     rd.1 = .ok (([10, 20, 30] : List Byte).take 2) ∧
     rd.2.1.pos = 2 + ((([10, 20, 30] : List Byte).take 2).length : Int) ∧
     rdA.1 = .ok (([10, 20, 30] : List Byte).take 2) ∧
     rdA.2.1.pos = (([10, 20, 30] : List Byte).length : Int) +
       ((([10, 20, 30] : List Byte).take 2).length : Int)) :=
  ⟨⟨by decide, by decide, by decide, by decide, by decide, by decide, by decide,
    by decide, by decide, by decide⟩,
    C5_amended_staging_read_from_zero (worldWith "c" [10, 20, 30]) "c" 0 1024 0
      ⟨[10, 20, 30], 493, false⟩ 2 2 (by decide) (by decide) (by decide) (by decide)
      (by decide) (by decide) (by decide) (by decide) (by decide) (by decide)⟩

/-- C6: Seek on an unmaterialized handle computes the new position
arithmetically (Start: offset; Current: position plus offset; End: remote
size plus offset, where the remote size comes from exactly one backend
metadata probe and defaults to 0 when the probe fails), rejects a
negative result with the invalid-argument error while leaving the handle
unchanged, and never stages the buffer or fetches content: the call log
grows by exactly one stat call for End and by nothing otherwise, and the
backend objects are untouched. -/
theorem C6_seek_unmaterialized (f : File) (w : World) (offset : Int) (wh : Whence)
    (htf : f.tf = none) :
    let rsize : Int :=
      match w.objects f.name with
      | some o => (o.content.length : Int)
      | none => 0
    let npos : Int :=
      match wh with
      | .seekStart => offset
      | .seekCurrent => f.pos + offset
      | .seekEnd => rsize + offset
      | .invalidWhence => -1
    let r := File.Seek f w offset wh
    (npos < 0 → r.1 = .err .invalidArg ∧ r.2.1 = f) ∧
    (0 ≤ npos → r.1 = .ok npos ∧ r.2.1 = { f with pos := npos }) ∧
    r.2.1.tf = none ∧
    r.2.2.objects = w.objects ∧
    r.2.2.calls = w.calls ++
      (match wh with
       | .seekEnd => [.stat f.name]
       | _ => []) := by
  intro rsize npos r
  have hsz : f.Size w =
      (rsize, { w with calls := w.calls ++ [.stat f.name] }) := by
    unfold File.Size File.statProbe apiStat rsize
    cases hobj : w.objects f.name <;> simp [hobj]
  cases wh with
  | seekStart =>
    simp only [r, npos, File.Seek, htf]
    rcases lt_or_le offset 0 with h | h
    · have h2 : ¬ (0 ≤ offset) := not_le.mpr h
      simp [h, h2, htf]
    · have h2 : ¬ (offset < 0) := not_lt.mpr h
      simp [h, h2]
  | seekCurrent =>
    simp only [r, npos, File.Seek, htf]
    rcases lt_or_le (f.pos + offset) 0 with h | h
    · have h2 : ¬ (0 ≤ f.pos + offset) := not_le.mpr h
      simp [h, h2, htf]
    · have h2 : ¬ (f.pos + offset < 0) := not_lt.mpr h
      simp [h, h2]
  | seekEnd =>
    simp only [r, npos, File.Seek, htf, hsz]
    rcases lt_or_le (rsize + offset) 0 with h | h
    · have h2 : ¬ (0 ≤ rsize + offset) := not_le.mpr h
      simp [h, h2, htf]
    · have h2 : ¬ (rsize + offset < 0) := not_lt.mpr h
      simp [h, h2]
  | invalidWhence =>
    simp only [r, npos, File.Seek, htf]
    simp [htf]

/-- C6 witness: seeking to End with offset -1 on an unmaterialized handle
over the object x with three bytes of content yields position 2 after one
stat probe, with no fetch and no staging. -/
theorem C6_seek_unmaterialized_witness :
    ((⟨false, none, 5, "x", 0, 0⟩ : File).tf = none) ∧
    (let rsize : Int :=
      match (worldWith "x" [1, 2, 3]).objects (⟨false, none, 5, "x", 0, 0⟩ : File).name with
      | some o => (o.content.length : Int)
      | none => 0
     let npos : Int :=
      match Whence.seekEnd with
      | .seekStart => (-1 : Int)
      | .seekCurrent => (⟨false, none, 5, "x", 0, 0⟩ : File).pos + (-1)
      | .seekEnd => rsize + (-1)
      | .invalidWhence => -1
     let r := File.Seek ⟨false, none, 5, "x", 0, 0⟩ (worldWith "x" [1, 2, 3]) (-1) .seekEnd
     (npos < 0 → r.1 = .err .invalidArg ∧ r.2.1 = ⟨false, none, 5, "x", 0, 0⟩) ∧
     (0 ≤ npos → r.1 = .ok npos ∧
        r.2.1 = { (⟨false, none, 5, "x", 0, 0⟩ : File) with pos := npos }) ∧
     r.2.1.tf = none ∧
     r.2.2.objects = (worldWith "x" [1, 2, 3]).objects ∧
     r.2.2.calls = (worldWith "x" [1, 2, 3]).calls ++
      (match Whence.seekEnd with
       | .seekEnd => [.stat (⟨false, none, 5, "x", 0, 0⟩ : File).name]
       | _ => [])) :=
  ⟨rfl, C6_seek_unmaterialized ⟨false, none, 5, "x", 0, 0⟩ (worldWith "x" [1, 2, 3])
    (-1) .seekEnd rfl⟩

/-- C7: opening an absent object with create intent yields a handle whose
Stat returns synthetic metadata (size 0, directory flag false, the handle
name, the requested permission) without any backend call, in any world;
and for any handle whose object existed at open or whose open did not
request creation, Stat is a direct backend query. -/
theorem C7_stat_synthetic (w w2 w3 : World) (name : String) (flag perm : Nat) (g : File)
    (habs : w.objects name = none) (hcr : flag &&& O_CREATE ≠ 0)
    (hg : g.isNew = false ∨ g.flag &&& O_CREATE = 0) :
    (RESTFileSystem.OpenFile w name flag perm).1 =
      .ok ⟨true, none, 0, name, flag, perm⟩ ∧
    (File.Stat ⟨true, none, 0, name, flag, perm⟩ w2).1 = .ok ⟨name, 0, perm, false⟩ ∧
    (File.Stat ⟨true, none, 0, name, flag, perm⟩ w2).2.calls = w2.calls ∧
    File.Stat g w3 = apiStat w3 g.name := by
  refine ⟨?_, ?_, ?_, ?_⟩
  · simp [RESTFileSystem.OpenFile, apiStat, habs, errorsIsNotExist, hcr]
  · simp [File.Stat, hcr]
  · simp [File.Stat, hcr]
  · rcases hg with hg | hg <;> simp [File.Stat, hg]

/-- C7 witness: a concrete instance with the absent object a opened with
the create flag and permission 7, and a handle on an existing object e
for the direct-query conjunct. -/
theorem C7_stat_synthetic_witness :
    (emptyWorld.objects "a" = none ∧ (64 : Nat) &&& O_CREATE ≠ 0 ∧
      ((⟨false, none, 0, "e", 0, 0⟩ : File).isNew = false ∨
        (⟨false, none, 0, "e", 0, 0⟩ : File).flag &&& O_CREATE = 0)) ∧
    ((RESTFileSystem.OpenFile emptyWorld "a" 64 7).1 =
      .ok ⟨true, none, 0, "a", 64, 7⟩ ∧
    (File.Stat ⟨true, none, 0, "a", 64, 7⟩ (RESTFileSystem.OpenFile emptyWorld "a" 64 7).2).1 =
      .ok ⟨"a", 0, 7, false⟩ ∧
    (File.Stat ⟨true, none, 0, "a", 64, 7⟩ (RESTFileSystem.OpenFile emptyWorld "a" 64 7).2).2.calls =
      (RESTFileSystem.OpenFile emptyWorld "a" 64 7).2.calls ∧
    File.Stat ⟨false, none, 0, "e", 0, 0⟩ (worldWith "e" [3]) =
      apiStat (worldWith "e" [3]) (⟨false, none, 0, "e", 0, 0⟩ : File).name) :=
  ⟨⟨rfl, by decide, Or.inl rfl⟩,
    C7_stat_synthetic emptyWorld (RESTFileSystem.OpenFile emptyWorld "a" 64 7).2
      (worldWith "e" [3]) "a" 64 7 ⟨false, none, 0, "e", 0, 0⟩ rfl (by decide) (Or.inl rfl)⟩

/-- C8: opening a name whose backend stat reports not-found, without the
create flag, returns an error that wraps the not-found error with
context, and the wrapped error still answers true to the not-found
test. -/
theorem C8_open_missing_without_create (w : World) (name : String) (flag perm : Nat)
    (habs : w.objects name = none) (hcr : flag &&& O_CREATE = 0) :
    (RESTFileSystem.OpenFile w name flag perm).1 =
      .error (.wrapped "error while opening file" .notFound) ∧
    errorsIsNotExist (Err.wrapped "error while opening file" .notFound) = true := by
  constructor
  · simp [RESTFileSystem.OpenFile, apiStat, habs, errorsIsNotExist, hcr]
  · rfl

/-- C8 witness: opening the absent name missing read-only returns the
wrapped not-found error, and the not-found test on it answers true. -/
theorem C8_open_missing_without_create_witness :
    (emptyWorld.objects "missing" = none ∧ (0 : Nat) &&& O_CREATE = 0) ∧
    ((RESTFileSystem.OpenFile emptyWorld "missing" 0 0).1 =
      .error (.wrapped "error while opening file" .notFound) ∧
    errorsIsNotExist (Err.wrapped "error while opening file" .notFound) = true) :=
  ⟨⟨rfl, by decide⟩,
    C8_open_missing_without_create emptyWorld "missing" 0 0 rfl (by decide)⟩

/-- C9 counterexample: the absent object d is opened with create intent,
written one byte, and closed, which flushes it to the backend (the
backend now reports size 1); yet Stat on the same handle still returns
the synthetic metadata with size 0, not the real backend metadata the
claim predicts. -/
theorem C9_stat_after_close_counterexample :
    (let op := RESTFileSystem.OpenFile emptyWorld "d" (O_CREATE ||| O_WRONLY) 0
     let wr := File.Write ⟨true, none, 0, "d", O_CREATE ||| O_WRONLY, 0⟩ op.2 [7]
     let cl := File.Close wr.2.1 wr.2.2
     op.1 = .ok ⟨true, none, 0, "d", O_CREATE ||| O_WRONLY, 0⟩ ∧
     cl.1 = .ok () ∧
     (File.Stat wr.2.1 cl.2).1.toOption = some ⟨"d", 0, 0, false⟩ ∧
     (RESTFileSystem.Stat cl.2 "d").1.toOption = some ⟨"d", 1, 511, false⟩ ∧
     (⟨"d", 0, 0, false⟩ : FileInfo) ≠ ⟨"d", 1, 511, false⟩) := by
  exact ⟨rfl, rfl, rfl, rfl, by decide⟩

/-- C9 amended: Close never clears the isNew flag of the handle, so Stat
on the same handle keeps returning the synthetic metadata even in any
world reached after the close-time flush; the real backend metadata of
the flushed object is returned by a fresh backend query through the
facade Stat, not by the closed handle. -/
theorem C9_amended_stat_stays_synthetic (f : File) (w : World) (o : RObj)
    (hnew : f.isNew = true) (hcr : f.flag &&& O_CREATE ≠ 0)
    (hobj : w.objects f.name = some o) :
    (File.Stat f w).1 = .ok ⟨f.name, 0, f.perm, false⟩ ∧
    (RESTFileSystem.Stat w f.name).1 =
      .ok ⟨f.name, (o.content.length : Int), o.mode, o.isDir⟩ := by
  constructor
  · simp [File.Stat, hnew, hcr]
  · simp [RESTFileSystem.Stat, apiStat, hobj]

/-- C9 amended witness: the handle that created object d (one byte 7
staged and flushed) still reports synthetic size 0 in a world where the
object exists with one byte, while the facade Stat reports size 1. -/
theorem C9_amended_stat_stays_synthetic_witness :
    ((⟨true, some ⟨[7], 1⟩, 1, "d", 65, 0⟩ : File).isNew = true ∧
     (⟨true, some ⟨[7], 1⟩, 1, "d", 65, 0⟩ : File).flag &&& O_CREATE ≠ 0 ∧
     (worldWith "d" [7]).objects (⟨true, some ⟨[7], 1⟩, 1, "d", 65, 0⟩ : File).name =
       some ⟨[7], 493, false⟩) ∧
    ((File.Stat ⟨true, some ⟨[7], 1⟩, 1, "d", 65, 0⟩ (worldWith "d" [7])).1 =
      .ok ⟨"d", 0, 0, false⟩ ∧
    (RESTFileSystem.Stat (worldWith "d" [7]) "d").1 =
      .ok ⟨"d", 1, 493, false⟩) :=
  ⟨⟨rfl, by decide, rfl⟩,
    C9_amended_stat_stays_synthetic ⟨true, some ⟨[7], 1⟩, 1, "d", 65, 0⟩
      (worldWith "d" [7]) ⟨[7], 493, false⟩ rfl (by decide) rfl⟩

end RestFS
